import Mathlib

/-!
Shallow embedding of the leaderboard-derivation logic of `src/app.py`
(a Streamlit points-table dashboard).  The embedded functions are
`make_unique` (header disambiguation) and `build_leaderboard` (totals-row
extraction, cell cleaning, numeric parsing, competitor-id derivation,
sorting and ranking), together with the pandas/numpy primitives they
call, modelled at the granularity the claims need:

* `df_raw.iloc[total_row_index]` — integer row lookup accepting negative
  offsets counted from the end (`resolveIndex`);
* `str.replace(r"[^0-9.\-]", "", regex=True)` — keep only digits, dots
  and minus signs (`cleanCell`);
* `pd.to_numeric(..., errors="coerce")` on a string over the cleaned
  alphabet — parse an optional leading minus, digits and at most one dot,
  otherwise missing (`parseNum`), followed by `.fillna(0)` (`pointsOf`);
* `re.search(r"pod", c, re.I)` — case-insensitive substring test
  (`isPodHeader`);
* `''.join(filter(str.isdigit, c)) or c` — digit-subsequence extraction
  with full-header fallback (`podId`);
* `sort_values("Total Points", ascending=False)` followed by
  `reset_index(drop=True)` and `Rank = index + 1` — a descending sort by
  points (`sortDesc`, realized by `List.insertionSort`) and 1-based
  ranking (`rankify`).  The code's sort (numpy argsort with the default
  `kind='quicksort'`) guarantees a descending-sorted permutation of its
  input but not a specific order among tied values; the theorems below
  use `sortDesc` only through that sorted-permutation property
  (`sortDesc_perm`, `sortDesc_sorted`) — no theorem asserts a tie order —
  and every concrete input evaluated below has pairwise distinct points,
  where the permutation is unique.

Numbers are modelled as exact rationals (ℚ).
-/

namespace Leaderboard

/-- A cell character survives the cleaning regex `[^0-9.\-]` → `""` iff it
is a digit, a decimal point, or a minus sign (at any position). -/
def keepChar (c : Char) : Bool := c.isDigit || c == '.' || c == '-'

/-- `str.replace(r"[^0-9.\-]", "", regex=True)` applied to one cell. -/
def cleanCell (s : String) : String := ⟨s.data.filter keepChar⟩

/-- Value of a list of decimal digit characters, most significant first. -/
def digitsToNat (l : List Char) : ℕ := l.foldl (fun a c => 10 * a + (c.toNat - 48)) 0

/-- `pd.to_numeric(s, errors="coerce")` for a string `s` over the cleaned
alphabet (digits, `.`, `-`): an optional leading minus sign followed by
digit characters with at most one decimal point and at least one digit
parses to an exact rational; anything else is missing (`none`, i.e. NaN). -/
def parseNum (s : String) : Option ℚ :=
  let l := s.data
  let neg := l.head? == some '-'
  let t := if neg then l.tail else l
  if (t.all fun c => c.isDigit || c == '.') && decide (t.count '.' ≤ 1) &&
      (t.any fun c => c.isDigit) then
    let ip := t.takeWhile fun c => c != '.'
    let fp := (t.dropWhile fun c => c != '.').drop 1
    let mag : Int := (digitsToNat ip * 10 ^ fp.length + digitsToNat fp : ℕ)
    some (mkRat (if neg then -mag else mag) (10 ^ fp.length))
  else none

/-- The numeric value `build_leaderboard` uses for one totals-row cell:
clean, coerce to numeric, and `fillna(0)`. -/
def pointsOf (s : String) : ℚ := (parseNum (cleanCell s)).getD 0

/-- Does the character list contain `p`,`o`,`d` consecutively? -/
def hasPod : List Char → Bool
  | 'p' :: 'o' :: 'd' :: _ => true
  | _ :: t => hasPod t
  | [] => false

/-- `re.search(r"pod", c, re.I)`: the lowercased header contains "pod"
(ASCII case folding, applied characterwise). -/
def isPodHeader (c : String) : Bool := hasPod (c.data.map Char.toLower)

/-- `''.join(filter(str.isdigit, c)) or c`: the subsequence of digit
characters of the header, or the full header when it has no digits. -/
def podId (c : String) : String :=
  let d := c.data.filter Char.isDigit
  if d.isEmpty then c else ⟨d⟩

/-- Positions of the selected ("POD") columns, in input column order:
`[c for c in df_raw.columns if re.search(r"pod", c, re.I)]`. -/
def podColumns (header : List String) : List ℕ :=
  (List.range header.length).filter fun j => isPodHeader (header.getD j "")

/-- One `(POD Number, Total Points)` pair per selected column, in input
column order — the pre-sort content of the `summary` frame. -/
def selectedPairs (header row : List String) : List (String × ℚ) :=
  (podColumns header).map fun j => (podId (header.getD j ""), pointsOf (row.getD j ""))

/-- Comparison used by the descending sort: `a` may precede `b` iff `a`'s
points are ≥ `b`'s. -/
def pointsGE (a b : String × ℚ) : Prop := b.2 ≤ a.2

instance : DecidableRel pointsGE := fun a b => inferInstanceAs (Decidable (b.2 ≤ a.2))

instance : IsTotal (String × ℚ) pointsGE := ⟨fun a b => le_total b.2 a.2⟩

instance : IsTrans (String × ℚ) pointsGE := ⟨fun _ _ _ hab hbc => le_trans hbc hab⟩

/-- `summary.sort_values("Total Points", ascending=False)`, with the
default `kind='quicksort'`.  The code guarantees only a descending-sorted
permutation of the input: numpy's introsort does not specify the relative
order of tied values (it preserves input order only in its small-array
insertion-sort regime of at most 16 elements).  This executable model
realizes one such permutation via `List.insertionSort`; all theorems
below use it only through `sortDesc_perm` and `sortDesc_sorted`, the two
properties the code does guarantee, and never through its tie order. -/
def sortDesc (l : List (String × ℚ)) : List (String × ℚ) := List.insertionSort pointsGE l

/-- One row of the returned `summary` frame. -/
structure Entry where
  rank : ℕ
  competitor : String
  points : ℚ
  deriving DecidableEq, Inhabited, Repr

/-- `reset_index(drop=True)` followed by `summary["Rank"] = summary.index + 1`,
starting from index `k`. -/
def rankifyFrom (k : ℕ) : List (String × ℚ) → List Entry
  | [] => []
  | p :: t => ⟨k + 1, p.1, p.2⟩ :: rankifyFrom (k + 1) t

/-- Attach 1-based ranks in order. -/
def rankify (l : List (String × ℚ)) : List Entry := rankifyFrom 0 l

/-- The two failure modes of `build_leaderboard` (each surfaced by
`st.error` while an empty frame is returned). -/
inductive BuildError
  | rowIndexError
  | noPodColumns
  deriving DecidableEq, Repr

/-- `df_raw.iloc[i]` row resolution for a frame of `n` data rows:
`0 ≤ i < n` addresses row `i`, `-n ≤ i < 0` addresses row `n + i`,
anything else raises (caught by the `except` block). -/
def resolveIndex (n : ℕ) (i : Int) : Option ℕ :=
  if -(n : Int) ≤ i ∧ i < (n : Int) then
    some (if i < 0 then ((n : Int) + i).toNat else i.toNat)
  else none

/-- `build_leaderboard(df_raw, total_row_index)` from `src/app.py`, on a
frame with column names `header` and data rows `rows` (cells missing at
the end of a row are the empty string). -/
def build_leaderboard (header : List String) (rows : List (List String))
    (total_row_index : Int) : Except BuildError (List Entry) :=
  match resolveIndex rows.length total_row_index with
  | none => .error .rowIndexError
  | some k =>
    if (podColumns header).isEmpty then .error .noPodColumns
    else .ok (rankify (sortDesc (selectedPairs header (rows.getD k []))))

/-- `make_unique` from `src/app.py`, with the `seen` dict modelled as an
association list queried by `List.lookup` (newest binding first, so a
re-insertion shadows the old count). -/
def makeUniqueGo (seen : List (String × ℕ)) : List String → List String
  | [] => []
  | h :: t =>
    match seen.lookup h with
    | none => h :: makeUniqueGo ((h, 0) :: seen) t
    | some k => (h ++ "_" ++ toString (k + 1)) :: makeUniqueGo ((h, k + 1) :: seen) t

/-- `make_unique(headers)`: disambiguate duplicate header names by
suffixing an occurrence counter. -/
def make_unique (headers : List String) : List String := makeUniqueGo [] headers

/-- Cleaning as the spec words it (for comparison with `cleanCell`):
delete every character that is not a digit, a decimal point, or a
*leading* minus sign — so a minus that is not the cell's first character
is deleted. -/
def spec_cleanCell (s : String) : String :=
  match s.data with
  | '-' :: t => ⟨'-' :: t.filter fun c => c.isDigit || c == '.'⟩
  | l => ⟨l.filter fun c => c.isDigit || c == '.'⟩

deriving instance DecidableEq for Except

/-! Helper lemmas about the embedded operations. -/

theorem resolveIndex_eq_none {n : ℕ} {i : Int}
    (h : ¬(-(n : Int) ≤ i ∧ i < (n : Int))) : resolveIndex n i = none := if_neg h

theorem resolveIndex_nonneg {n : ℕ} {i : Int} (h0 : 0 ≤ i) (h1 : i < (n : Int)) :
    resolveIndex n i = some i.toNat := by
  unfold resolveIndex
  rw [if_pos ⟨by omega, h1⟩, if_neg (by omega)]

theorem resolveIndex_neg {n : ℕ} {i : Int} (h0 : -(n : Int) ≤ i) (h1 : i < 0) :
    resolveIndex n i = some ((n : Int) + i).toNat := by
  unfold resolveIndex
  rw [if_pos ⟨h0, by omega⟩, if_pos h1]

theorem build_eq_of_none {header : List String} {rows : List (List String)} {i : Int}
    (h : resolveIndex rows.length i = none) :
    build_leaderboard header rows i = .error .rowIndexError := by
  unfold build_leaderboard
  rw [h]

theorem build_eq_of_some {header : List String} {rows : List (List String)} {i : Int} {k : ℕ}
    (h : resolveIndex rows.length i = some k) :
    build_leaderboard header rows i =
      if (podColumns header).isEmpty then .error .noPodColumns
      else .ok (rankify (sortDesc (selectedPairs header (rows.getD k [])))) := by
  unfold build_leaderboard
  rw [h]

theorem build_ok_elim {header : List String} {rows : List (List String)} {i : Int}
    {s : List Entry} (h : build_leaderboard header rows i = .ok s) :
    ∃ k, resolveIndex rows.length i = some k ∧
      s = rankify (sortDesc (selectedPairs header (rows.getD k []))) := by
  cases hr : resolveIndex rows.length i with
  | none => rw [build_eq_of_none hr] at h; cases h
  | some k =>
    rw [build_eq_of_some hr] at h
    by_cases hp : (podColumns header).isEmpty
    · rw [if_pos hp] at h; cases h
    · rw [if_neg hp] at h
      injection h with h
      exact ⟨k, rfl, h.symm⟩

theorem rankifyFrom_length (k : ℕ) (l : List (String × ℚ)) :
    (rankifyFrom k l).length = l.length := by
  induction l generalizing k with
  | nil => rfl
  | cons p t ih => simp [rankifyFrom, ih]

theorem rankifyFrom_map_pair (k : ℕ) (l : List (String × ℚ)) :
    (rankifyFrom k l).map (fun e => (e.competitor, e.points)) = l := by
  induction l generalizing k with
  | nil => rfl
  | cons p t ih => simp [rankifyFrom, ih]

theorem rankifyFrom_getD_rank (k : ℕ) (l : List (String × ℚ)) {j : ℕ} (hj : j < l.length) :
    ((rankifyFrom k l).getD j default).rank = k + j + 1 := by
  induction l generalizing k j with
  | nil => simp at hj
  | cons p t ih =>
    cases j with
    | zero => rfl
    | succ j =>
      have : ((rankifyFrom (k + 1) t).getD j default).rank = k + 1 + j + 1 :=
        ih (k + 1) (by simpa using hj)
      simpa [rankifyFrom, Nat.add_assoc, Nat.add_comm 1 j] using this

theorem rankifyFrom_getD_points (k : ℕ) (l : List (String × ℚ)) {j : ℕ} (hj : j < l.length) :
    ((rankifyFrom k l).getD j default).points = (l.getD j ("", 0)).2 := by
  induction l generalizing k j with
  | nil => simp at hj
  | cons p t ih =>
    cases j with
    | zero => rfl
    | succ j => simpa [rankifyFrom] using ih (k + 1) (by simpa using hj)

theorem rankifyFrom_map_rank (k : ℕ) (l : List (String × ℚ)) :
    (rankifyFrom k l).map Entry.rank = List.range' (k + 1) l.length := by
  induction l generalizing k with
  | nil => rfl
  | cons p t ih => simp [rankifyFrom, ih, List.range'_succ]

theorem sortDesc_perm (l : List (String × ℚ)) : List.Perm (sortDesc l) l :=
  List.perm_insertionSort pointsGE l

theorem sortDesc_sorted (l : List (String × ℚ)) : List.Sorted pointsGE (sortDesc l) :=
  List.sorted_insertionSort pointsGE l

theorem sorted_getD_le {l : List (String × ℚ)} (hl : List.Sorted pointsGE l) {j : ℕ}
    (hj : j + 1 < l.length) :
    (l.getD (j + 1) ("", 0)).2 ≤ (l.getD j ("", 0)).2 := by
  have h := List.Sorted.rel_get_of_lt hl (a := ⟨j, by omega⟩) (b := ⟨j + 1, hj⟩)
    (Fin.mk_lt_mk.mpr (by omega))
  rw [List.getD_eq_getElem l ("", 0) hj,
    List.getD_eq_getElem l ("", 0) (show j < l.length by omega)]
  simpa [pointsGE] using h

theorem rankifyFrom_map_competitor (k : ℕ) (l : List (String × ℚ)) :
    (rankifyFrom k l).map Entry.competitor = l.map Prod.fst := by
  induction l generalizing k with
  | nil => rfl
  | cons p t ih => simp [rankifyFrom, ih]

theorem makeUniqueGo_getD :
    ∀ (t : List String) (seen : List (String × ℕ)) (p : List String),
      (∀ h, seen.lookup h = if p.count h = 0 then none else some (p.count h - 1)) →
      ∀ i, i < t.length →
        (makeUniqueGo seen t).getD i "" =
          (if (p ++ t.take i).count (t.getD i "") = 0 then t.getD i ""
           else t.getD i "" ++ "_" ++ toString ((p ++ t.take i).count (t.getD i "")))
  | [], _, _, _, i, hi => by simp at hi
  | hd :: tl, seen, p, hinv, i, hi => by
    have h0 := hinv hd
    cases i with
    | zero =>
      by_cases hc : p.count hd = 0
      · rw [if_pos hc] at h0
        simp [makeUniqueGo, h0, hc]
      · rw [if_neg hc] at h0
        have hpred : p.count hd - 1 + 1 = p.count hd :=
          Nat.succ_pred_eq_of_pos (Nat.pos_of_ne_zero hc)
        simp [makeUniqueGo, h0, hc, hpred]
    | succ i =>
      have hi' : i < tl.length := by simpa using hi
      have hcnt : ∀ h : String, (p ++ [hd]).count h = p.count h + (if h = hd then 1 else 0) := by
        intro h
        by_cases hh : h = hd
        · subst hh
          simp [List.count_append]
        · simp [List.count_append, List.count_eq_zero, hh, Ne.symm hh]
      by_cases hc : p.count hd = 0
      · rw [if_pos hc] at h0
        have hinv' : ∀ h, ((hd, 0) :: seen).lookup h =
            if (p ++ [hd]).count h = 0 then none else some ((p ++ [hd]).count h - 1) := by
          intro h
          by_cases hh : h = hd
          · subst hh
            simp [List.lookup, hcnt, hc]
          · have : (h == hd) = false := by simpa using hh
            simp [List.lookup, this, hcnt, hh, hinv h]
        have := makeUniqueGo_getD tl ((hd, 0) :: seen) (p ++ [hd]) hinv' i hi'
        simpa [makeUniqueGo, h0, List.append_assoc] using this
      · rw [if_neg hc] at h0
        have hpred : p.count hd - 1 + 1 = p.count hd :=
          Nat.succ_pred_eq_of_pos (Nat.pos_of_ne_zero hc)
        have hinv' : ∀ h, ((hd, p.count hd - 1 + 1) :: seen).lookup h =
            if (p ++ [hd]).count h = 0 then none else some ((p ++ [hd]).count h - 1) := by
          intro h
          by_cases hh : h = hd
          · subst hh
            simp [List.lookup, hcnt, hpred]
          · have : (h == hd) = false := by simpa using hh
            simp [List.lookup, this, hcnt, hh, hinv h]
        have := makeUniqueGo_getD tl ((hd, p.count hd - 1 + 1) :: seen) (p ++ [hd]) hinv' i hi'
        simpa [makeUniqueGo, h0, List.append_assoc] using this

/-! Claim theorems. -/

/-- C1 (counterexample): on the totals row with headers
`["POD 1", "POD 2", "POD3"]` and cells `["10", "-", "7.5"]`,
`build_leaderboard` does NOT return the two-entry summary the claim
describes: the unparseable "POD 2" cell is not excluded. -/
theorem c1_counterexample :
    build_leaderboard ["POD 1", "POD 2", "POD3"] [["10", "-", "7.5"]] 0 ≠
      .ok [⟨1, "1", 10⟩, ⟨2, "3", mkRat 15 2⟩] := by decide

/-- C1 (amended): on that input `build_leaderboard` follows the zero-fill
policy: it returns three entries — rank 1 competitor "1" with 10 points,
rank 2 competitor "3" with 7.5 points, and the unparseable column "POD 2"
kept as rank 3 with 0 points. -/
theorem c1_zero_fill :
    build_leaderboard ["POD 1", "POD 2", "POD3"] [["10", "-", "7.5"]] 0 =
      .ok [⟨1, "1", 10⟩, ⟨2, "3", mkRat 15 2⟩, ⟨3, "2", 0⟩] := by decide

/-- C3 (counterexample): for the cell "1-2" the code keeps the interior
minus sign (cleaning regex `[^0-9.\-]`), so the remainder "1-2" fails to
parse and the value used is the zero-fill 0; the claim's cleaning rule
(delete any minus that is not leading) yields "12", which parses to 12. -/
theorem c3_counterexample :
    build_leaderboard ["pod"] [["1-2"]] 0 = .ok [⟨1, "pod", 0⟩] ∧
      parseNum (spec_cleanCell "1-2") = some 12 ∧ (0 : ℚ) ≠ 12 :=
  ⟨by decide, by decide, by decide⟩

/-- C3 (amended): the summary's (competitor, points) pairs are a
permutation of one pair per selected column, whose numeric value is
obtained by deleting every character that is not a digit, a decimal
point, or a minus sign (kept at ANY position), parsing the remainder, and
substituting 0 when the remainder does not parse (zero-fill, not drop). -/
theorem c3_cell_cleaning (header : List String) (rows : List (List String))
    (i : Int) (k : ℕ) (s : List Entry)
    (h : build_leaderboard header rows i = .ok s)
    (hk : resolveIndex rows.length i = some k) :
    List.Perm (s.map fun e => (e.competitor, e.points))
      ((podColumns header).map fun j =>
        (podId (header.getD j ""),
          (parseNum ⟨((rows.getD k []).getD j "").data.filter keepChar⟩).getD 0)) := by
  obtain ⟨k', hk', hs⟩ := build_ok_elim h
  rw [hk] at hk'
  injection hk' with hk'
  subst hk'
  subst hs
  rw [rankify, rankifyFrom_map_pair]
  show List.Perm (sortDesc (selectedPairs header (rows.getD k [])))
    (selectedPairs header (rows.getD k []))
  exact sortDesc_perm _

/-- C3 witness: a concrete run with one parseable and one unparseable
cell; the unparseable cell contributes a zero-fill pair. -/
theorem c3_witness :
    build_leaderboard ["POD 1", "POD 2"] [["3", "-"]] 0 =
        .ok [⟨1, "1", 3⟩, ⟨2, "2", 0⟩] ∧
      resolveIndex ([["3", "-"]] : List (List String)).length 0 = some 0 ∧
      List.Perm (([⟨1, "1", 3⟩, ⟨2, "2", 0⟩] : List Entry).map
          fun e => (e.competitor, e.points))
        ((podColumns ["POD 1", "POD 2"]).map fun j =>
          (podId ((["POD 1", "POD 2"] : List String).getD j ""),
            (parseNum ⟨((([["3", "-"]] : List (List String)).getD 0 []).getD j
              "").data.filter keepChar⟩).getD 0)) :=
  ⟨by decide, by decide,
    c3_cell_cleaning ["POD 1", "POD 2"] [["3", "-"]] 0 0 _ (by decide) (by decide)⟩

/-- C4: whenever `total_row_index` is not a valid `iloc` row offset into
the data rows (neither `0 ≤ i < N` nor the negative form `-N ≤ i < 0`),
`build_leaderboard` fails with the row-index error and produces no
partial output. -/
theorem c4_row_index_error (header : List String) (rows : List (List String)) (i : Int)
    (h : ¬(-(rows.length : Int) ≤ i ∧ i < (rows.length : Int))) :
    build_leaderboard header rows i = .error .rowIndexError :=
  build_eq_of_none (resolveIndex_eq_none h)

/-- C4 witness: index 5 on a one-row sheet is rejected. -/
theorem c4_witness :
    ¬(-((([["1"]] : List (List String)).length : ℕ) : Int) ≤ 5 ∧
        (5 : Int) < ((([["1"]] : List (List String)).length : ℕ) : Int)) ∧
      build_leaderboard ["POD 1"] [["1"]] 5 = .error .rowIndexError :=
  ⟨by decide, c4_row_index_error ["POD 1"] [["1"]] 5 (by decide)⟩

/-- C5: the ranks of any summary produced by `build_leaderboard` are
exactly the contiguous sequence 1..N, N the number of entries. -/
theorem c5_ranks_one_to_n (header : List String) (rows : List (List String))
    (i : Int) (s : List Entry) (h : build_leaderboard header rows i = .ok s) :
    s.map Entry.rank = List.range' 1 s.length := by
  obtain ⟨k, hk, hs⟩ := build_ok_elim h
  subst hs
  have := rankifyFrom_map_rank 0 (sortDesc (selectedPairs header (rows.getD k [])))
  simpa [rankify, rankifyFrom_length] using this

/-- C5 witness: a three-entry summary has ranks `[1, 2, 3]`. -/
theorem c5_witness :
    build_leaderboard ["POD 1", "POD 2", "POD3"] [["1", "8", "3"]] 0 =
        .ok [⟨1, "2", 8⟩, ⟨2, "3", 3⟩, ⟨3, "1", 1⟩] ∧
      ([⟨1, "2", 8⟩, ⟨2, "3", 3⟩, ⟨3, "1", 1⟩] : List Entry).map Entry.rank =
        List.range' 1 ([⟨1, "2", 8⟩, ⟨2, "3", 3⟩, ⟨3, "1", 1⟩] : List Entry).length :=
  ⟨by decide,
    c5_ranks_one_to_n ["POD 1", "POD 2", "POD3"] [["1", "8", "3"]] 0 _ (by decide)⟩

/-- C6: in any summary produced by `build_leaderboard`, total points are
non-increasing across consecutive positions. -/
theorem c6_points_nonincreasing (header : List String) (rows : List (List String))
    (i : Int) (s : List Entry) (h : build_leaderboard header rows i = .ok s)
    (j : ℕ) (hj : j + 1 < s.length) :
    (s.getD (j + 1) default).points ≤ (s.getD j default).points := by
  obtain ⟨k, hk, hs⟩ := build_ok_elim h
  subst hs
  rw [rankify] at hj ⊢
  rw [rankifyFrom_length] at hj
  rw [rankifyFrom_getD_points 0 _ hj, rankifyFrom_getD_points 0 _ (by omega)]
  exact sorted_getD_le (sortDesc_sorted _) hj

/-- C6 witness: in a concrete three-entry summary the points at ranks 2
and 3 are below those at ranks 1 and 2 respectively. -/
theorem c6_witness :
    build_leaderboard ["POD 1", "POD 2", "POD3"] [["1", "8", "3"]] 0 =
        .ok [⟨1, "2", 8⟩, ⟨2, "3", 3⟩, ⟨3, "1", 1⟩] ∧
      (0 : ℕ) + 1 < ([⟨1, "2", 8⟩, ⟨2, "3", 3⟩, ⟨3, "1", 1⟩] : List Entry).length ∧
      (([⟨1, "2", 8⟩, ⟨2, "3", 3⟩, ⟨3, "1", 1⟩] : List Entry).getD (0 + 1) default).points ≤
        (([⟨1, "2", 8⟩, ⟨2, "3", 3⟩, ⟨3, "1", 1⟩] : List Entry).getD 0 default).points :=
  ⟨by decide, by decide,
    c6_points_nonincreasing ["POD 1", "POD 2", "POD3"] [["1", "8", "3"]] 0 _ (by decide)
      0 (by decide)⟩

/-- C7: `make_unique` leaves the first occurrence of a header unchanged
and renames the k-th repetition of a name `h` (k prior occurrences) to
`h_k` — the occurrence counter is the count of `h` in the strict prefix. -/
theorem c7_make_unique (hs : List String) (i : ℕ) (hi : i < hs.length) :
    (make_unique hs).getD i "" =
      (if (hs.take i).count (hs.getD i "") = 0 then hs.getD i ""
       else hs.getD i "" ++ "_" ++ toString ((hs.take i).count (hs.getD i ""))) := by
  have := makeUniqueGo_getD hs [] []
    (fun h => by simp [List.lookup]) i hi
  simpa [make_unique] using this

/-- C7 witness: `["Score", "Score"]` becomes `["Score", "Score_1"]` — the
second occurrence is renamed. -/
theorem c7_witness :
    (1 : ℕ) < (["Score", "Score"] : List String).length ∧
      (make_unique ["Score", "Score"]).getD 1 "" =
        (if ((["Score", "Score"] : List String).take 1).count
            ((["Score", "Score"] : List String).getD 1 "") = 0 then
          (["Score", "Score"] : List String).getD 1 ""
         else (["Score", "Score"] : List String).getD 1 "" ++ "_" ++
          toString (((["Score", "Score"] : List String).take 1).count
            ((["Score", "Score"] : List String).getD 1 ""))) :=
  ⟨by decide, c7_make_unique ["Score", "Score"] 1 (by decide)⟩

/-- C8 (counterexample): for the header "pod 1a2" the derived competitor
identifier is "12", which is not a (contiguous) substring of the header
at all — the code concatenates ALL digit characters, it does not extract
a digit substring. -/
theorem c8_counterexample :
    build_leaderboard ["pod 1a2"] [["5"]] 0 = .ok [⟨1, "12", 5⟩] ∧
      podId "pod 1a2" = "12" ∧ ¬List.IsInfix "12".data "pod 1a2".data :=
  ⟨by decide, by decide, by decide⟩

/-- C8 (amended): the competitor identifiers of any summary are a
permutation of, per selected column, the concatenation of the header's
digit characters in order (its digit subsequence), or the full header
verbatim when it contains no digit; columns whose identifiers coincide
are kept as separate entries (one per column, no failure). -/
theorem c8_competitor_ids (header : List String) (rows : List (List String))
    (i : Int) (k : ℕ) (s : List Entry)
    (h : build_leaderboard header rows i = .ok s)
    (hk : resolveIndex rows.length i = some k) :
    List.Perm (s.map Entry.competitor)
      ((podColumns header).map fun j =>
        (let c := header.getD j "";
         let d := c.data.filter Char.isDigit;
         if d.isEmpty then c else (⟨d⟩ : String))) := by
  obtain ⟨k', hk', hs⟩ := build_ok_elim h
  rw [hk] at hk'
  injection hk' with hk'
  subst hk'
  subst hs
  rw [rankify, rankifyFrom_map_competitor]
  show List.Perm ((sortDesc (selectedPairs header (rows.getD k []))).map Prod.fst)
    ((podColumns header).map fun j => podId (header.getD j ""))
  have h2 : (selectedPairs header (rows.getD k [])).map Prod.fst =
      (podColumns header).map fun j => podId (header.getD j "") := by
    unfold selectedPairs
    rw [List.map_map]
    rfl
  rw [← h2]
  exact (sortDesc_perm _).map Prod.fst

/-- C8 witness: two headers that reduce to the same identifier "12" are
kept as two separate entries. -/
theorem c8_witness :
    build_leaderboard ["POD 12", "POD 1 2"] [["4", "6"]] 0 =
        .ok [⟨1, "12", 6⟩, ⟨2, "12", 4⟩] ∧
      resolveIndex ([["4", "6"]] : List (List String)).length 0 = some 0 ∧
      List.Perm (([⟨1, "12", 6⟩, ⟨2, "12", 4⟩] : List Entry).map Entry.competitor)
        ((podColumns ["POD 12", "POD 1 2"]).map fun j =>
          (let c := (["POD 12", "POD 1 2"] : List String).getD j "";
           let d := c.data.filter Char.isDigit;
           if d.isEmpty then c else (⟨d⟩ : String))) :=
  ⟨by decide, by decide,
    c8_competitor_ids ["POD 12", "POD 1 2"] [["4", "6"]] 0 0 _ (by decide) (by decide)⟩

/-- C9: when the totals-row index resolves and at least one header
matches "pod", `build_leaderboard` succeeds with exactly one entry per
matching column — unparseable cells are zero-filled, never dropped — so
the summary is nonempty. -/
theorem c9_entry_per_column (header : List String) (rows : List (List String))
    (i : Int) (k : ℕ) (hk : resolveIndex rows.length i = some k)
    (hp : podColumns header ≠ []) :
    ∃ s, build_leaderboard header rows i = .ok s ∧
      s.length = (podColumns header).length ∧ s ≠ [] := by
  have hne : (podColumns header).isEmpty = false := by
    simpa [List.isEmpty_iff] using hp
  refine ⟨rankify (sortDesc (selectedPairs header (rows.getD k []))), ?_, ?_, ?_⟩
  · rw [build_eq_of_some hk, hne]
    simp
  · rw [rankify, rankifyFrom_length, (sortDesc_perm _).length_eq]
    unfold selectedPairs
    rw [List.length_map]
  · have hlen : (rankify (sortDesc (selectedPairs header (rows.getD k [])))).length =
        (podColumns header).length := by
      rw [rankify, rankifyFrom_length, (sortDesc_perm _).length_eq]
      unfold selectedPairs
      rw [List.length_map]
    intro hnil
    rw [hnil] at hlen
    exact hp (List.length_eq_zero.mp hlen.symm)

/-- C9 witness: a single POD column whose totals cell is empty still
yields a one-entry summary with 0 points. -/
theorem c9_witness :
    resolveIndex ([[""]] : List (List String)).length 0 = some 0 ∧
      podColumns ["POD 1"] ≠ [] ∧
      ∃ s, build_leaderboard ["POD 1"] [[""]] 0 = .ok s ∧
        s.length = (podColumns ["POD 1"]).length ∧ s ≠ [] :=
  ⟨by decide, by decide,
    c9_entry_per_column ["POD 1"] [[""]] 0 0 (by decide) (by decide)⟩

/-- C10: a negative `total_row_index` in `-N..-1` is accepted: the build
equals the build at the nonnegative offset `total_row_index + N` (the row
counted from the end) and never fails with the row-index error. -/
theorem c10_negative_index (header : List String) (rows : List (List String))
    (i : Int) (h0 : -(rows.length : Int) ≤ i) (h1 : i < 0) :
    build_leaderboard header rows i = build_leaderboard header rows (i + rows.length) ∧
      build_leaderboard header rows i ≠ .error .rowIndexError := by
  have hneg := resolveIndex_neg h0 h1
  have hnn : resolveIndex rows.length (i + rows.length) =
      some ((rows.length : Int) + i).toNat := by
    rw [resolveIndex_nonneg (by omega) (by omega)]
    congr 1
    omega
  constructor
  · rw [build_eq_of_some hneg, build_eq_of_some hnn]
  · rw [build_eq_of_some hneg]
    by_cases hp : (podColumns header).isEmpty
    · rw [if_pos hp]
      intro hcontra
      simp at hcontra
    · rw [if_neg hp]
      intro hcontra
      simp at hcontra

/-- C10 witness: on a two-row sheet, index -1 builds from the last row
and does not raise the row-index error. -/
theorem c10_witness :
    -((([["9"], ["7"]] : List (List String)).length : Int)) ≤ -1 ∧ (-1 : Int) < 0 ∧
      (build_leaderboard ["POD 1"] [["9"], ["7"]] (-1) =
          build_leaderboard ["POD 1"] [["9"], ["7"]]
            (-1 + (([["9"], ["7"]] : List (List String)).length : Int)) ∧
        build_leaderboard ["POD 1"] [["9"], ["7"]] (-1) ≠ .error .rowIndexError) :=
  ⟨by decide, by decide,
    c10_negative_index ["POD 1"] [["9"], ["7"]] (-1) (by decide) (by decide)⟩

end Leaderboard
